import Mathlib

/-!
Shallow embedding of the `chats_archive` core of the ixC repository:
the encrypted local store (`chats_archive/storage.py`), the encryption
key manager, the lock file, the job tracker and the export orchestrator
(`chats_archive/orchestrator.py`).

External libraries (Fernet encryption, base64, SHA-256, JSON
serialization) are modelled as components of an environment record
`Env`; the store's own control flow is translated directly from the
Python source.  Byte strings are modelled as `List Nat`; hex digests
and base64 text as `String` or `List Nat` as the source uses them.
Exceptions raised by the I/O layer inside `store_conversation` are
modelled by a boolean input (`io`): the Python function catches every
exception and returns `False`, which the embedding renders as a total
function returning `false` on that branch.
-/

namespace ChatsArchive

/-- storage.py `IntegrityState`: the closed enumeration of verification
outcomes. -/
inductive IntegrityState where
  | valid
  | corrupt
  | unreadable
  | missing
  | unknown
deriving DecidableEq, Repr

/-- storage.py `IntegrityResult` dataclass. -/
structure IntegrityResult where
  conversation_id : String
  state : IntegrityState
  filepath : Option String
  size_bytes : Option Nat
  expected_checksum : Option String
  actual_checksum : Option String
  error_code : Option String
deriving DecidableEq, Repr

/-- The metadata dict stored next to the ciphertext.  Only the keys the
core reads are modelled: `id`, `conversation_id`, and the provenance
tags `source` / `job_id` written by the orchestrator.  A missing key is
`none`. -/
structure Meta where
  id : Option String
  conversation_id : Option String
  source : Option String
  job_id : Option String
deriving DecidableEq, Repr

/-- One wrapper file's JSON object, as written by
`store_conversation`.  `encrypted_content` is the base64 text of the
ciphertext (`[]` models the empty string); `checksum` is the hex digest
of the plaintext bytes (`none` models an absent or null field). -/
structure Wrapper where
  metadata : Meta
  encrypted_content : List Nat
  encryption_version : String
  checksum : Option String
  archived_at : String
  version : String
deriving DecidableEq, Repr

/-- One file under `<archive>/conversations/<date>/`.  `content = none`
models a file whose JSON fails to load, or loads to a falsy value
(`_load_wrapper` returning `None`, or the `if not wrapper` guard). -/
structure ArchiveFile where
  date_dir : String
  name : String
  size_bytes : Nat
  content : Option Wrapper
deriving DecidableEq, Repr

/-- The mutable state of a `LocalEncryptedStore`: the poisoned flag
`_key_mismatch` set by `_load_or_init_manifest`, and the archive files
(in directory-iteration order, which the model fixes as list order). -/
structure StoreState where
  key_mismatch : Bool
  files : List ArchiveFile
deriving DecidableEq, Repr

/-- Environment of external collaborators: JSON (de)serialization of
conversation records of type `R`, SHA-256 hex digests, the Fernet
cipher bound to the store's key, base64, the filename token
(`sha256(id)[:16]`), today's UTC date, and the orchestrator's fetcher
and health flags. -/
structure Env (R : Type) where
  serialize : R → List Nat
  deserialize : List Nat → Option R
  sha256_hex : List Nat → String
  encrypt : List Nat → List Nat
  decrypt : List Nat → Option (List Nat)
  b64encode : List Nat → List Nat
  b64decode : List Nat → Option (List Nat)
  file_token : String → String
  today : String
  fetch_detail : String → Option R
  io_ok : Bool
  token_ok : Bool
  api_ok : Bool
  token_valid : Bool

/-- Python `a or b` on two optional strings (an empty string is falsy),
as in `md.get("id") or md.get("conversation_id")`. -/
def py_or_str : Option String → Option String → Option String
  | some s, b => if s = "" then b else some s
  | none, b => b

/-- `_wrapper_path_for` / `_file_token`: the filename
`conv-<token>.enc` of the wrapper for a conversation id. -/
def wrapper_name {R : Type} (env : Env R) (cid : String) : String :=
  "conv-" ++ env.file_token cid ++ ".enc"

/-- Whether the character list `s` starts with `p`. -/
def chars_start_with : List Char → List Char → Bool
  | _, [] => true
  | [], _ :: _ => false
  | a :: as, b :: bs => a == b && chars_start_with as bs

/-- Whether the character list `s` ends with `p`. -/
def chars_end_with (s p : List Char) : Bool :=
  chars_start_with s.reverse p.reverse

/-- The glob pattern `conv-<cid[:8]>*.enc` used by the legacy lookup
tier (`fnmatch` semantics): the name starts with `conv-` plus the first
eight characters of the conversation id, ends with `.enc`, and is long
enough that the star matches a (possibly empty) infix. -/
def legacy_glob_match (name : String) (cid : String) : Bool :=
  let pre := ("conv-".toList) ++ cid.toList.take 8
  chars_start_with name.toList pre && chars_end_with name.toList (".enc".toList)
    && decide (pre.length + 4 ≤ name.toList.length)

/-- `_find_by_new_token`: first file named `conv-<token>.enc`. -/
def find_by_new_token {R : Type} (env : Env R) (files : List ArchiveFile)
    (cid : String) : Option ArchiveFile :=
  files.find? (fun f => f.name == wrapper_name env cid)

/-- `_find_by_legacy_glob` (source `_find_by_legacy_` + 8-char glob):
first file matching `conv-<cid[:8]>*.enc`. -/
def find_by_legacy_glob (files : List ArchiveFile) (cid : String) :
    Option ArchiveFile :=
  files.find? (fun f => legacy_glob_match f.name cid)

/-- The predicate of `_find_by_metadata_scan`: the wrapper loads and its
metadata `id`-or-`conversation_id` equals the requested id. -/
def metadata_scan_hit (cid : String) (f : ArchiveFile) : Bool :=
  match f.content with
  | some w => py_or_str w.metadata.id w.metadata.conversation_id == some cid
  | none => false

/-- `_find_by_metadata_scan`: first wrapper whose metadata identifier
matches. -/
def find_by_metadata_scan (files : List ArchiveFile) (cid : String) :
    Option ArchiveFile :=
  files.find? (metadata_scan_hit cid)

/-- `find_wrapper_path_for_conversation`: three-tier lookup, new token
first, then the legacy 8-character-prefix glob, then the metadata
scan. -/
def find_wrapper_path_for_conversation {R : Type} (env : Env R)
    (s : StoreState) (cid : String) : Option ArchiveFile :=
  match find_by_new_token env s.files cid with
  | some f => some f
  | none =>
    match find_by_legacy_glob s.files cid with
    | some f => some f
    | none => find_by_metadata_scan s.files cid

/-- Rendered path of a file (`str(filepath)`). -/
def file_path_str (f : ArchiveFile) : String :=
  f.date_dir ++ "/" ++ f.name

/-- `_decrypt_bytes`: returns `(decrypted_bytes, error_code)`.  Empty
content, base64 failure and decryption failure give the source's error
codes; generic decryption exceptions collapse onto the `InvalidToken`
branch (both yield `UNREADABLE`). -/
def decrypt_bytes {R : Type} (env : Env R) (w : Wrapper) :
    Option (List Nat) × Option String :=
  if w.encrypted_content = [] then (none, some "WRAPPER_NO_CONTENT")
  else
    match env.b64decode w.encrypted_content with
    | none => (none, some "WRAPPER_B64_DECODE_FAIL")
    | some enc =>
      match env.decrypt enc with
      | some b => (some b, none)
      | none => (none, some "DECRYPT_INVALID_TOKEN")

/-- The guard `if expected_checksum and actual_checksum !=
expected_checksum` (a `None` or empty stored checksum is falsy, so the
comparison is skipped). -/
def checksum_mismatch (expected : Option String) (actual : String) : Bool :=
  match expected with
  | none => false
  | some e => if e = "" then false else decide (actual ≠ e)

/-- `_verify_wrapper`: decrypt, then compare checksums; optionally
JSON-decode the plaintext into the returned content. -/
def verify_wrapper {R : Type} (env : Env R) (cid : String)
    (f : ArchiveFile) (w : Wrapper) (return_content : Bool) :
    IntegrityResult × Option R :=
  let expected := w.checksum
  match decrypt_bytes env w with
  | (none, err) =>
    ({ conversation_id := cid,
       state := if err.isSome then IntegrityState.unreadable
                else IntegrityState.unknown,
       filepath := some (file_path_str f),
       size_bytes := some f.size_bytes,
       expected_checksum := expected,
       actual_checksum := none,
       error_code := match err with
         | some e => some e
         | none => some "VERIFY_UNKNOWN" }, none)
  | (some b, _) =>
    let actual := env.sha256_hex b
    if checksum_mismatch expected actual then
      ({ conversation_id := cid,
         state := IntegrityState.corrupt,
         filepath := some (file_path_str f),
         size_bytes := some f.size_bytes,
         expected_checksum := expected,
         actual_checksum := some actual,
         error_code := some "CHECKSUM_MISMATCH" }, none)
    else
      let ok : IntegrityResult :=
        { conversation_id := cid,
          state := IntegrityState.valid,
          filepath := some (file_path_str f),
          size_bytes := some f.size_bytes,
          expected_checksum := expected,
          actual_checksum := some actual,
          error_code := none }
      if return_content then
        match env.deserialize b with
        | some r => (ok, some r)
        | none =>
          ({ conversation_id := cid,
             state := IntegrityState.unknown,
             filepath := some (file_path_str f),
             size_bytes := some f.size_bytes,
             expected_checksum := expected,
             actual_checksum := some actual,
             error_code := some "JSON_DECODE_FAIL" }, none)
      else (ok, none)

/-- `verify_conversation`: the public verification state machine. -/
def verify_conversation {R : Type} (env : Env R) (s : StoreState)
    (cid : String) : IntegrityResult :=
  if s.key_mismatch then
    { conversation_id := cid,
      state := IntegrityState.unreadable,
      filepath := none,
      size_bytes := none,
      expected_checksum := none,
      actual_checksum := none,
      error_code := some "WRONG_KEY_MANIFEST_MISMATCH" }
  else
    match find_wrapper_path_for_conversation env s cid with
    | none =>
      { conversation_id := cid,
        state := IntegrityState.missing,
        filepath := none,
        size_bytes := none,
        expected_checksum := none,
        actual_checksum := none,
        error_code := some "NOT_FOUND" }
    | some f =>
      match f.content with
      | none =>
        { conversation_id := cid,
          state := IntegrityState.unknown,
          filepath := some (file_path_str f),
          size_bytes := none,
          expected_checksum := none,
          actual_checksum := none,
          error_code := some "WRAPPER_LOAD_FAIL" }
      | some w => (verify_wrapper env cid f w false).1

/-- `has_valid_conversation`. -/
def has_valid_conversation {R : Type} (env : Env R) (s : StoreState)
    (cid : String) : Bool :=
  (verify_conversation env s cid).state == IntegrityState.valid

/-- `retrieve_conversation`: the single fail-closed read path. -/
def retrieve_conversation {R : Type} (env : Env R) (s : StoreState)
    (cid : String) : Option R :=
  if s.key_mismatch then none
  else
    match find_wrapper_path_for_conversation env s cid with
    | none => none
    | some f =>
      match f.content with
      | none => none
      | some w =>
        let vc := verify_wrapper env cid f w true
        if vc.1.state = IntegrityState.valid then vc.2 else none

/-- `conv_id` resolution in `store_conversation`:
`metadata_dict.get('id') or metadata_dict.get('conversation_id',
'unknown')`, then the falsy guard replacing an empty id by
`"unknown"`. -/
def conv_id_of (md : Meta) : String :=
  let c :=
    match py_or_str md.id md.conversation_id with
    | some s => s
    | none => "unknown"
  if c = "" then "unknown" else c

/-- The wrapper object `store_conversation` writes for a record and its
metadata dict. -/
def mk_wrapper {R : Type} (env : Env R) (conv : R) (md : Meta) : Wrapper :=
  let bytes := env.serialize conv
  { metadata := md,
    encrypted_content := env.b64encode (env.encrypt bytes),
    encryption_version := "fernet-v1",
    checksum := some (env.sha256_hex bytes),
    archived_at := env.today,
    version := "1.1" }

/-- The archive file `store_conversation` creates (today's date
directory, token-derived name). -/
def wrapper_file {R : Type} (env : Env R) (conv : R) (md : Meta) :
    ArchiveFile :=
  let cid := conv_id_of md
  { date_dir := env.today,
    name := wrapper_name env cid,
    size_bytes := (env.b64encode (env.encrypt (env.serialize conv))).length,
    content := some (mk_wrapper env conv md) }

/-- `open(filepath, 'w')` + `json.dump`: overwrite the file at that
path if it exists, otherwise create it. -/
def write_file : List ArchiveFile → ArchiveFile → List ArchiveFile
  | [], g => [g]
  | f :: fs, g =>
    if f.date_dir = g.date_dir ∧ f.name = g.name then g :: fs
    else f :: write_file fs g

/-- `store_conversation`.  The boolean `io` input models whether the
serialization / encryption / filesystem operations inside the `try`
block succeed; the Python function catches every exception and returns
`False`, which the embedding renders as the total `false` branch. -/
def store_conversation {R : Type} (env : Env R) (s : StoreState)
    (conv : R) (md : Meta) (io_fine : Bool) : Bool × StoreState :=
  if io_fine then
    (true, { key_mismatch := s.key_mismatch,
             files := write_file s.files (wrapper_file env conv md) })
  else (false, s)

/-!
### Key manager (storage.py `EncryptionKeyManager`)

The OS credential manager and the fallback key file are modelled as an
explicit state; `Fernet(key)` parse success and `Fernet.generate_key()`
are environment components.
-/

/-- Environment for `get_or_create_key`: whether a candidate string
parses as a valid Fernet key, the key `Fernet.generate_key()` would
produce, whether the `keyring` module imported, and whether
`set_password` succeeds. -/
structure KeyEnv where
  is_valid_fernet : String → Bool
  new_key : String
  keyring_available : Bool
  keyring_set_ok : Bool

/-- The stored-key state: the credential-manager entry and the local
fallback file (`none` = absent / file does not exist). -/
structure KeyState where
  keyring_value : Option String
  key_file : Option String
deriving DecidableEq, Repr

/-- `get_or_create_key`: returns the key handed to the caller and the
resulting stored-key state.  Mirrors the source: a truthy stored
keyring value is returned only if it parses; an existing fallback file
is returned only if it parses; otherwise a new key is generated and
persisted (keyring first, local file if the keyring write fails or the
keyring is unavailable). -/
def get_or_create_key (env : KeyEnv) (s : KeyState) : String × KeyState :=
  let from_keyring : Option String :=
    if env.keyring_available then
      match s.keyring_value with
      | some k => if k ≠ "" ∧ env.is_valid_fernet k then some k else none
      | none => none
    else none
  match from_keyring with
  | some k => (k, s)
  | none =>
    let from_file : Option String :=
      match s.key_file with
      | some k => if env.is_valid_fernet k then some k else none
      | none => none
    match from_file with
    | some k => (k, s)
    | none =>
      if env.keyring_available then
        if env.keyring_set_ok then
          (env.new_key,
           { keyring_value := some env.new_key, key_file := s.key_file })
        else
          (env.new_key,
           { keyring_value := s.keyring_value, key_file := some env.new_key })
      else
        (env.new_key,
         { keyring_value := s.keyring_value, key_file := some env.new_key })

/-!
### Lock file (orchestrator.py `LockFile`)
-/

/-- The observable state of a `LockFile`: `_lock_acquired` and whether
`lock_file` is an open handle. -/
structure LockState where
  lock_acquired : Bool
  file_open : Bool
deriving DecidableEq, Repr

/-- The initial state after `__init__`. -/
def lock_init : LockState :=
  { lock_acquired := false, file_open := false }

/-- Outcome of one `acquire` attempt with a non-positive timeout:
the lock call succeeds, blocks (IOError/OSError/BlockingIOError), or
raises some other exception. -/
inductive AcquireOutcome where
  | success
  | blocked
  | fatal
deriving DecidableEq, Repr

/-- `acquire` with `timeout <= 0` (a single attempt): on success the
lock is held and the handle open; on failure `_close_file` runs and
`False` is returned with `_lock_acquired` untouched. -/
def lock_acquire (o : AcquireOutcome) (s : LockState) : Bool × LockState :=
  match o with
  | AcquireOutcome.success =>
    (true, { lock_acquired := true, file_open := true })
  | AcquireOutcome.blocked =>
    (false, { lock_acquired := s.lock_acquired, file_open := false })
  | AcquireOutcome.fatal =>
    (false, { lock_acquired := s.lock_acquired, file_open := false })

/-- `release`: returns immediately when the lock is not held; otherwise
unlocks (exceptions swallowed), closes the handle and clears
`_lock_acquired`.  Total: every exception inside is caught. -/
def lock_release (s : LockState) : LockState :=
  if s.lock_acquired then { lock_acquired := false, file_open := false }
  else s

/-!
### Job tracker (orchestrator.py `JobTracker`)

The SQLite `jobs` table is a list of rows; `job_id` is the primary
key.  `update_job_status` is an `UPDATE ... WHERE job_id = ?` per
field, modelled as a pointwise row update.
-/

/-- One row of the `jobs` table (columns the core reads/writes). -/
structure JobRow where
  job_id : String
  total_conversations : Nat
  successful_conversations : Nat
  failed_conversations : Nat
  errors : List String
  status : String
deriving DecidableEq, Repr

/-- `create_job`: insert a fresh pending row (the generated uuid is an
input). -/
def create_job (jobs : List JobRow) (jid : String) : List JobRow :=
  jobs ++ [{ job_id := jid,
             total_conversations := 0,
             successful_conversations := 0,
             failed_conversations := 0,
             errors := [],
             status := "pending" }]

/-- `UPDATE jobs SET ... WHERE job_id = ?`: apply a field update to the
rows with the given id. -/
def update_row (jobs : List JobRow) (jid : String) (f : JobRow → JobRow) :
    List JobRow :=
  jobs.map (fun r => if r.job_id = jid then f r else r)

/-- `get_job`. -/
def get_job (jobs : List JobRow) (jid : String) : Option JobRow :=
  jobs.find? (fun r => r.job_id == jid)

/-!
### Orchestrator (orchestrator.py `ArchiveOrchestrator._run_export_locked`)
-/

/-- One iteration of the export loop for one listed conversation:
integrity-aware skip, else fetch detail and store.  Returns whether the
item counted as successful, the error tag appended on failure, and the
updated store state.  A `fetch_detail` returning `none` covers the
falsy-result, `PermissionError` and generic-exception branches (they
differ only in the error tag; the tag here is the `fetch_failed` one of
the falsy branch). -/
def process_item {R : Type} (env : Env R) (jid : String) (force : Bool)
    (st : StoreState) (m : Meta) : Bool × Option String × StoreState :=
  let cid := m.id.getD "unknown"
  if !force && (cid != "unknown") && has_valid_conversation env st cid then
    (true, none, st)
  else
    match env.fetch_detail cid with
    | some conv =>
      let md2 : Meta :=
        { id := m.id,
          conversation_id := m.conversation_id,
          source := some (m.source.getD "fetch"),
          job_id := some jid }
      let r := store_conversation env st conv md2 env.io_ok
      if r.1 then (true, none, r.2)
      else (false, some ("storage_failed:" ++ cid.take 8), r.2)
    | none => (false, some ("fetch_failed:" ++ cid.take 8), st)

/-- The export loop over the listed conversations: returns
`(successful, failed, errors, final store state)`. -/
def process_all {R : Type} (env : Env R) (jid : String) (force : Bool) :
    StoreState → List Meta → Nat × Nat × List String × StoreState
  | st, [] => (0, 0, [], st)
  | st, m :: ms =>
    let r := process_item env jid force st m
    let rest := process_all env jid force r.2.2 ms
    if r.1 then (rest.1 + 1, rest.2.1, rest.2.2.1, rest.2.2.2)
    else
      (rest.1, rest.2.1 + 1,
       (match r.2.1 with | some e => [e] | none => []) ++ rest.2.2.1,
       rest.2.2.2)

/-- Outcome of `_run_export_locked`: either an exception propagates to
the caller (after the ledger was updated), or the job id is returned
normally. -/
inductive ExportResult where
  | raised : List JobRow → StoreState → ExportResult
  | done : String → List JobRow → StoreState → ExportResult
deriving DecidableEq, Repr

/-- The body of `_run_export_locked` after the job id is resolved:
mark `in_progress`, check token / API health / token validity, run the
loop, then write the final counts and mark `completed`. -/
def run_core {R : Type} (env : Env R) (jobs : List JobRow) (jid : String)
    (force : Bool) (st : StoreState) (items : List Meta) : ExportResult :=
  let jobs1 := update_row jobs jid (fun r => { r with status := "in_progress" })
  if !env.token_ok then
    ExportResult.raised
      (update_row jobs1 jid (fun r =>
        { r with status := "failed", errors := ["No auth token available"] }))
      st
  else if !env.api_ok then
    ExportResult.done jid
      (update_row jobs1 jid (fun r =>
        { r with status := "failed", errors := ["API degraded"] }))
      st
  else if !env.token_valid then
    ExportResult.raised
      (update_row jobs1 jid (fun r =>
        { r with status := "failed",
                 errors := ["Auth token validation failed"] }))
      st
  else
    let res := process_all env jid force st items
    ExportResult.done jid
      (update_row jobs1 jid (fun r =>
        { r with status := "completed",
                 total_conversations := items.length,
                 successful_conversations := res.1,
                 failed_conversations := res.2.1,
                 errors := res.2.2.1 }))
      res.2.2.2

/-- `_run_export_locked`: resolve the job (resume an existing row —
`ValueError` if absent — or create a fresh one), then run the core.
`items` models the result of `fetch_all_conversations`; `new_jid` the
uuid `create_job` would generate. -/
def run_export_locked {R : Type} (env : Env R) (jobs : List JobRow)
    (new_jid : String) (resume : Option String) (force : Bool)
    (st : StoreState) (items : List Meta) : ExportResult :=
  match resume with
  | some jid =>
    match get_job jobs jid with
    | none => ExportResult.raised jobs st
    | some _ => run_core env jobs jid force st items
  | none => run_core env (create_job jobs new_jid) new_jid force st items

/-- Projection: the job ledger after a run, whether it returned or
raised. -/
def export_jobs : ExportResult → List JobRow
  | ExportResult.raised js _ => js
  | ExportResult.done _ js _ => js

/-- Projection: the returned job id (`none` when the run raised). -/
def export_ok : ExportResult → Option String
  | ExportResult.raised _ _ => none
  | ExportResult.done j _ _ => some j

/-- Projection: the store state after a run. -/
def export_store : ExportResult → StoreState
  | ExportResult.raised _ st => st
  | ExportResult.done _ _ st => st

/-!
### Contracts of the external libraries, and auxiliary models
-/

/-- The contracts of the external JSON / base64 / Fernet libraries that
the store relies on: round trips succeed, and a ciphertext's base64
text is never the empty string. -/
structure EnvLaws {R : Type} (env : Env R) : Prop where
  b64_roundtrip : ∀ b, env.b64decode (env.b64encode b) = some b
  decrypt_encrypt : ∀ b, env.decrypt (env.encrypt b) = some b
  deserialize_serialize : ∀ r, env.deserialize (env.serialize r) = some r
  ciphertext_nonempty : ∀ b, env.b64encode (env.encrypt b) ≠ []

/-- Well-formedness of a batch of listed conversation ids: no
duplicates, no falsy or `"unknown"` ids, filename tokens do not
collide, and no token-derived filename is caught by another id's
legacy 8-character glob. -/
def good_ids {R : Type} (env : Env R) (ids : List String) : Prop :=
  ids.Nodup ∧
  (∀ a ∈ ids, a ≠ "" ∧ a ≠ "unknown") ∧
  (∀ a ∈ ids, ∀ b ∈ ids, env.file_token a = env.file_token b → a = b) ∧
  (∀ a ∈ ids, ∀ b ∈ ids, legacy_glob_match (wrapper_name env a) b = false)

/-- Overwrite the stored `checksum` field of every wrapper file with
the given name (the tamper operation of the spec's tamper-detection
property). -/
def tamper_checksum (fs : List ArchiveFile) (nm : String) (c : String) :
    List ArchiveFile :=
  fs.map (fun f =>
    if f.name = nm then
      { f with content := f.content.map (fun w => { w with checksum := some c }) }
    else f)

/-- The metadata dict the orchestrator stores for a listed
conversation: the listing metadata tagged with provenance. -/
def tagged_meta (jid : String) (m : Meta) : Meta :=
  { id := m.id,
    conversation_id := m.conversation_id,
    source := some (m.source.getD "fetch"),
    job_id := some jid }

/-- The archive file the export loop writes for one listed
conversation (`none` when the detail fetch fails and nothing is
written). -/
def stored_file {R : Type} (env : Env R) (jid : String) (m : Meta) :
    Option ArchiveFile :=
  match env.fetch_detail (m.id.getD "unknown") with
  | some conv => some (wrapper_file env conv (tagged_meta jid m))
  | none => none

/-- The archive files a fresh-archive export writes for a list of
conversations, in processing order. -/
def stored_files {R : Type} (env : Env R) (jid : String) (l : List Meta) :
    List ArchiveFile :=
  l.filterMap (stored_file env jid)

/-!
### Concrete test environment

A small executable instantiation of the external collaborators, used
to evaluate the store on concrete inputs.  Records are `Nat`;
serialization is the singleton byte list; the cipher and base64 both
prepend a byte; digests are decimal strings.
-/

/-- Concrete environment: records are `Nat`, serialization is the
singleton list, cipher and base64 prepend a byte, the digest of a byte
list is its rendered sum, filename tokens prepend `"T"`. -/
def toy_env : Env Nat :=
  { serialize := fun n => [n],
    deserialize := fun b =>
      match b with
      | [n] => some n
      | _ => none,
    sha256_hex := fun b => toString (b.foldl (fun a n => a + n) 0),
    encrypt := fun b => 0 :: b,
    decrypt := fun b =>
      match b with
      | [] => none
      | _ :: t => some t,
    b64encode := fun b => 0 :: b,
    b64decode := fun b =>
      match b with
      | [] => none
      | _ :: t => some t,
    file_token := fun s => "T" ++ s,
    today := "2026-01-01",
    fetch_detail := fun s => some s.length,
    io_ok := true,
    token_ok := true,
    api_ok := true,
    token_valid := true }

/-- A metadata dict with identifier `"abc"`. -/
def toy_md : Meta :=
  { id := some "abc", conversation_id := none, source := none, job_id := none }

/-- A metadata dict with identifier `"zz"`. -/
def toy_md2 : Meta :=
  { id := some "zz", conversation_id := none, source := none, job_id := none }

/-- An archive file for id `"abc"` whose JSON fails to load. -/
def wit_file_load_fail : ArchiveFile :=
  { date_dir := "2026-01-01", name := "conv-Tabc.enc", size_bytes := 3,
    content := none }

/-- A wrapper for id `"abc"` with empty ciphertext (decryption cannot
even start). -/
def wit_wrap_nocontent : Wrapper :=
  { metadata := toy_md, encrypted_content := [],
    encryption_version := "fernet-v1", checksum := some "5",
    archived_at := "2026-01-01", version := "1.1" }

/-- The archive file holding `wit_wrap_nocontent`. -/
def wit_file_nocontent : ArchiveFile :=
  { date_dir := "2026-01-01", name := "conv-Tabc.enc", size_bytes := 3,
    content := some wit_wrap_nocontent }

/-- A wrapper whose plaintext decrypts to `[5]` but whose stored
checksum is wrong. -/
def wit_wrap_corrupt : Wrapper :=
  { metadata := toy_md, encrypted_content := [0, 0, 5],
    encryption_version := "fernet-v1", checksum := some "BAD",
    archived_at := "2026-01-01", version := "1.1" }

/-- The archive file holding `wit_wrap_corrupt`. -/
def wit_file_corrupt : ArchiveFile :=
  { date_dir := "2026-01-01", name := "conv-Tabc.enc", size_bytes := 3,
    content := some wit_wrap_corrupt }

/-- A wrapper whose stored checksum matches the recomputed digest. -/
def wit_wrap_valid : Wrapper :=
  { metadata := toy_md, encrypted_content := [0, 0, 5],
    encryption_version := "fernet-v1", checksum := some "5",
    archived_at := "2026-01-01", version := "1.1" }

/-- The archive file holding `wit_wrap_valid`. -/
def wit_file_valid : ArchiveFile :=
  { date_dir := "2026-01-01", name := "conv-Tabc.enc", size_bytes := 3,
    content := some wit_wrap_valid }

/-- A wrapper that decrypts fine but stores no checksum at all. -/
def wit_wrap_nochecksum : Wrapper :=
  { metadata := toy_md, encrypted_content := [0, 0, 5],
    encryption_version := "fernet-v1", checksum := none,
    archived_at := "2026-01-01", version := "1.1" }

/-- The archive file holding `wit_wrap_nochecksum`. -/
def wit_file_nochecksum : ArchiveFile :=
  { date_dir := "2026-01-01", name := "conv-Tabc.enc", size_bytes := 3,
    content := some wit_wrap_nochecksum }

/-- A pending job row for resuming. -/
def toy_job : JobRow :=
  { job_id := "J1",
    total_conversations := 0,
    successful_conversations := 0,
    failed_conversations := 0,
    errors := [],
    status := "pending" }

/-- A two-item listing batch with ids `"abc"` and `"zz"`. -/
def toy_items : List Meta := [toy_md, toy_md2]

/-- A key environment whose only valid key string is `"GOODKEY"`,
which is also the key the generator would produce. -/
def bad_key_env : KeyEnv :=
  { is_valid_fernet := fun k => k == "GOODKEY",
    new_key := "GOODKEY",
    keyring_available := true,
    keyring_set_ok := true }

/-- A stored-key state whose credential-manager entry does not parse
as a Fernet key. -/
def bad_key_state : KeyState :=
  { keyring_value := some "corrupt", key_file := none }

/-- The external-library contracts hold for the concrete
environment. -/
theorem toy_env_laws : EnvLaws toy_env :=
  { b64_roundtrip := fun _ => rfl,
    decrypt_encrypt := fun _ => rfl,
    deserialize_serialize := fun _ => rfl,
    ciphertext_nonempty := fun _ h => List.noConfusion h }

/-!
### Helper lemmas
-/

/-- `write_file` always leaves the written file in the directory. -/
theorem write_file_mem_self (fs : List ArchiveFile) (g : ArchiveFile) :
    g ∈ write_file fs g := by
  induction fs with
  | nil => simp [write_file]
  | cons f fs ih =>
    simp only [write_file]
    split
    · exact List.mem_cons_self g fs
    · exact List.mem_cons_of_mem f ih

/-- `write_file` leaves every file at a different path untouched. -/
theorem write_file_mem_of_ne (fs : List ArchiveFile) (g f : ArchiveFile)
    (hf : f ∈ fs) (hne : ¬(f.date_dir = g.date_dir ∧ f.name = g.name)) :
    f ∈ write_file fs g := by
  induction fs with
  | nil => cases hf
  | cons a fs ih =>
    rcases List.mem_cons.mp hf with rfl | hf2
    · simp only [write_file]
      split
      · exact absurd (by assumption) hne
      · exact List.mem_cons_self f (write_file fs g)
    · simp only [write_file]
      split
      · exact List.mem_cons_of_mem g hf2
      · exact List.mem_cons_of_mem a (ih hf2)

/-- `write_file` writes exactly one file: it either overwrites one
entry or appends one. -/
theorem write_file_length (fs : List ArchiveFile) (g : ArchiveFile) :
    (write_file fs g).length = fs.length ∨
      (write_file fs g).length = fs.length + 1 := by
  induction fs with
  | nil => right; rfl
  | cons f fs ih =>
    simp only [write_file]
    split
    · left; simp
    · rcases ih with h | h
      · left; simp [h]
      · right; simp [h]

/-- When no existing file sits at the written path, `write_file`
appends. -/
theorem write_file_eq_append (fs : List ArchiveFile) (g : ArchiveFile)
    (h : ∀ f ∈ fs, ¬(f.date_dir = g.date_dir ∧ f.name = g.name)) :
    write_file fs g = fs ++ [g] := by
  induction fs with
  | nil => rfl
  | cons f fs ih =>
    simp only [write_file]
    rw [if_neg (h f (List.mem_cons_self f fs))]
    rw [ih (fun x hx => h x (List.mem_cons_of_mem f hx))]
    rfl

/-- `_decrypt_bytes` returns either a failure with an error code, or
plaintext bytes with no error code. -/
theorem decrypt_bytes_cases {R : Type} (env : Env R) (w : Wrapper) :
    (∃ e, decrypt_bytes env w = (none, some e)) ∨
    (∃ b, decrypt_bytes env w = (some b, none)) := by
  unfold decrypt_bytes
  split
  · exact Or.inl ⟨_, rfl⟩
  · split
    · exact Or.inl ⟨_, rfl⟩
    · split
      · exact Or.inr ⟨_, rfl⟩
      · exact Or.inl ⟨_, rfl⟩

/-!
### Claims
-/

/-- C2: when the store is poisoned by a manifest key-fingerprint
mismatch, `verify_conversation` returns UNREADABLE with error code
`WRONG_KEY_MANIFEST_MISMATCH` for every conversation id, with a result
independent of the archive files (so no wrapper file is consulted);
`retrieve_conversation` returns `None`; and `store_conversation` never
clears the poisoned flag, so the state persists for the store's
lifetime (`verify`/`retrieve` do not mutate the state at all). -/
theorem C2_key_mismatch_fail_closed {R : Type} (env : Env R)
    (fs : List ArchiveFile) (cid : String) (conv : R) (md : Meta)
    (io_fine : Bool) :
    verify_conversation env { key_mismatch := true, files := fs } cid =
      { conversation_id := cid,
        state := IntegrityState.unreadable,
        filepath := none, size_bytes := none, expected_checksum := none,
        actual_checksum := none,
        error_code := some "WRONG_KEY_MANIFEST_MISMATCH" } ∧
    retrieve_conversation env { key_mismatch := true, files := fs } cid = none ∧
    (store_conversation env { key_mismatch := true, files := fs } conv md
        io_fine).2.key_mismatch = true := by
  refine ⟨rfl, rfl, ?_⟩
  cases io_fine <;> rfl

/-- C10: `store_conversation` never consults the poisoned flag — on a
poisoned store it returns the same boolean and writes the same files
as on a non-poisoned store, and with working I/O it returns `true`
having written the wrapper file. -/
theorem C10_store_ignores_poison {R : Type} (env : Env R)
    (fs : List ArchiveFile) (conv : R) (md : Meta) (io_fine : Bool) :
    (store_conversation env { key_mismatch := true, files := fs } conv md
        io_fine).1 =
      (store_conversation env { key_mismatch := false, files := fs } conv md
        io_fine).1 ∧
    (store_conversation env { key_mismatch := true, files := fs } conv md
        io_fine).2.files =
      (store_conversation env { key_mismatch := false, files := fs } conv md
        io_fine).2.files ∧
    (store_conversation env { key_mismatch := true, files := fs } conv md
        true).1 = true ∧
    (store_conversation env { key_mismatch := true, files := fs } conv md
        true).2.files = write_file fs (wrapper_file env conv md) := by
  cases io_fine <;> exact ⟨rfl, rfl, rfl, rfl⟩

/-- C8: `lock_release` is idempotent and total (every exception inside
it is swallowed in the source): releasing twice equals releasing once,
a released lock is in the released state, releasing after a successful
acquire returns to the initial state, and after a failed acquire a
release is a no-op on a lock that is not held. -/
theorem C8_release_idempotent (s : LockState) (o : AcquireOutcome) :
    lock_release (lock_release s) = lock_release s ∧
    (lock_release s).lock_acquired = false ∧
    lock_release (lock_acquire AcquireOutcome.success s).2 = lock_init ∧
    ((lock_acquire o lock_init).1 = false →
      lock_release (lock_acquire o lock_init).2 = (lock_acquire o lock_init).2 ∧
      (lock_acquire o lock_init).2.lock_acquired = false) := by
  obtain ⟨la, fo⟩ := s
  cases la <;> cases o <;>
    simp [lock_release, lock_acquire, lock_init]

/-- C8 witness: concrete idempotence and the failed-acquire case. -/
theorem C8_witness :
    lock_release (lock_release lock_init) = lock_release lock_init ∧
    lock_release (lock_acquire AcquireOutcome.blocked lock_init).2 =
      (lock_acquire AcquireOutcome.blocked lock_init).2 :=
  ⟨(C8_release_idempotent lock_init AcquireOutcome.blocked).1,
   ((C8_release_idempotent lock_init AcquireOutcome.blocked).2.2.2 rfl).1⟩

/-- C5 counterexample: with an unparseable key stored in the
credential manager, `get_or_create_key` generates a fresh key and
writes it over the stored entry — a new key IS auto-substituted in
place of the invalid one, refuting the claim's second half. -/
theorem C5_counterexample :
    bad_key_env.is_valid_fernet "corrupt" = false ∧
    bad_key_state.keyring_value = some "corrupt" ∧
    (get_or_create_key bad_key_env bad_key_state).1 = bad_key_env.new_key ∧
    (get_or_create_key bad_key_env bad_key_state).2.keyring_value =
      some bad_key_env.new_key := by
  decide

/-- C5 amended: `get_or_create_key` never returns a key that fails to
parse as a valid Fernet key; a stored key that fails to parse is
treated as absent; but then a freshly generated key is returned and
persisted in its place (credential manager first, local file as
fallback) — the stored state is left untouched only when a stored key
parses as valid and is returned. -/
theorem C5_amended_key_lifecycle (env : KeyEnv) (s : KeyState)
    (hnew : env.is_valid_fernet env.new_key = true) :
    env.is_valid_fernet (get_or_create_key env s).1 = true ∧
    ((get_or_create_key env s).1 ≠ env.new_key →
      (get_or_create_key env s).2 = s) ∧
    ((get_or_create_key env s).2 = s ∨
      (get_or_create_key env s).1 = env.new_key ∧
      ((get_or_create_key env s).2.keyring_value = some env.new_key ∨
       (get_or_create_key env s).2.key_file = some env.new_key)) := by
  obtain ⟨kv, kf⟩ := s
  rcases kv with _ | k1 <;> rcases kf with _ | k2 <;>
    cases hka : env.keyring_available <;>
    cases hset : env.keyring_set_ok <;>
    simp only [get_or_create_key, hka, hset] <;>
    split_ifs <;>
    refine ⟨?_, ?_, ?_⟩ <;>
    simp_all

/-- C5 amended witness: the returned key is valid at a concrete
state. -/
theorem C5_amended_witness :
    bad_key_env.is_valid_fernet
      (get_or_create_key bad_key_env bad_key_state).1 = true :=
  (C5_amended_key_lifecycle bad_key_env bad_key_state (by decide)).1

/-- C6: `store_conversation` returns `false` when I/O or encryption
fails, leaving the archive unchanged (the translation is a total
function — the Python method catches every exception, the embedding of
"never raises to the caller"); with working I/O it returns `true`
having written exactly one wrapper file: the new file is present,
every file at a different path is untouched, and the file count grows
by at most one. -/
theorem C6_store_returns_bool {R : Type} (env : Env R) (s : StoreState)
    (conv : R) (md : Meta) :
    store_conversation env s conv md false = (false, s) ∧
    (store_conversation env s conv md true).1 = true ∧
    (store_conversation env s conv md true).2.files =
      write_file s.files (wrapper_file env conv md) ∧
    wrapper_file env conv md ∈ (store_conversation env s conv md true).2.files ∧
    (∀ g ∈ s.files,
      ¬(g.date_dir = (wrapper_file env conv md).date_dir ∧
        g.name = (wrapper_file env conv md).name) →
      g ∈ (store_conversation env s conv md true).2.files) ∧
    ((store_conversation env s conv md true).2.files.length = s.files.length ∨
     (store_conversation env s conv md true).2.files.length =
       s.files.length + 1) := by
  refine ⟨rfl, rfl, rfl, ?_, ?_, ?_⟩
  · exact write_file_mem_self s.files _
  · intro g hg hne
    exact write_file_mem_of_ne s.files _ g hg hne
  · exact write_file_length s.files _

/-- C6 witness: a concrete failed store is a no-op returning `false`,
and a concrete successful store returns `true` keeping the unrelated
file. -/
theorem C6_witness :
    store_conversation toy_env ⟨false, [wit_file_load_fail]⟩ 7 toy_md2 false =
      (false, ⟨false, [wit_file_load_fail]⟩) ∧
    (store_conversation toy_env ⟨false, [wit_file_load_fail]⟩ 7 toy_md2
        true).1 = true ∧
    wit_file_load_fail ∈
      (store_conversation toy_env ⟨false, [wit_file_load_fail]⟩ 7 toy_md2
        true).2.files :=
  ⟨(C6_store_returns_bool toy_env ⟨false, [wit_file_load_fail]⟩ 7 toy_md2).1,
   (C6_store_returns_bool toy_env ⟨false, [wit_file_load_fail]⟩ 7 toy_md2).2.1,
   (C6_store_returns_bool toy_env ⟨false, [wit_file_load_fail]⟩ 7
       toy_md2).2.2.2.2.1 wit_file_load_fail (by simp) (by decide)⟩

/-- C1: on a non-poisoned store, `verify_conversation` follows exactly
the decision order of the source: when the three-tier lookup finds no
wrapper file the state is MISSING; when the wrapper fails to
load/JSON-decode the state is UNKNOWN; when base64 decoding or
decryption fails the state is UNREADABLE; when a (present, non-empty)
stored checksum differs from the recomputed digest the state is
CORRUPT; otherwise the state is VALID. -/
theorem C1_verify_decision_order {R : Type} (env : Env R)
    (fs : List ArchiveFile) (cid : String) :
    (find_wrapper_path_for_conversation env ⟨false, fs⟩ cid = none →
      (verify_conversation env ⟨false, fs⟩ cid).state =
        IntegrityState.missing) ∧
    (∀ f, find_wrapper_path_for_conversation env ⟨false, fs⟩ cid = some f →
      f.content = none →
      (verify_conversation env ⟨false, fs⟩ cid).state =
        IntegrityState.unknown) ∧
    (∀ f w, find_wrapper_path_for_conversation env ⟨false, fs⟩ cid = some f →
      f.content = some w → (decrypt_bytes env w).1 = none →
      (verify_conversation env ⟨false, fs⟩ cid).state =
        IntegrityState.unreadable) ∧
    (∀ f w b e,
      find_wrapper_path_for_conversation env ⟨false, fs⟩ cid = some f →
      f.content = some w → (decrypt_bytes env w).1 = some b →
      w.checksum = some e → e ≠ "" → env.sha256_hex b ≠ e →
      (verify_conversation env ⟨false, fs⟩ cid).state =
        IntegrityState.corrupt) ∧
    (∀ f w b, find_wrapper_path_for_conversation env ⟨false, fs⟩ cid = some f →
      f.content = some w → (decrypt_bytes env w).1 = some b →
      checksum_mismatch w.checksum (env.sha256_hex b) = false →
      (verify_conversation env ⟨false, fs⟩ cid).state =
        IntegrityState.valid) := by
  refine ⟨?_, ?_, ?_, ?_, ?_⟩
  · intro h
    simp [verify_conversation, h]
  · intro f hf hc
    simp [verify_conversation, hf, hc]
  · intro f w hf hc hd
    rcases decrypt_bytes_cases env w with ⟨e2, he2⟩ | ⟨b2, hb2⟩
    · simp [verify_conversation, hf, hc, verify_wrapper, he2]
    · rw [hb2] at hd
      cases hd
  · intro f w b e hf hc hd hck hne hsha
    rcases decrypt_bytes_cases env w with ⟨e2, he2⟩ | ⟨b2, hb2⟩
    · rw [he2] at hd
      cases hd
    · rw [hb2] at hd
      injection hd with hd
      subst hd
      simp [verify_conversation, hf, hc, verify_wrapper, hb2,
            checksum_mismatch, hck, hne, hsha]
  · intro f w b hf hc hd hmis
    rcases decrypt_bytes_cases env w with ⟨e2, he2⟩ | ⟨b2, hb2⟩
    · rw [he2] at hd
      cases hd
    · rw [hb2] at hd
      injection hd with hd
      subst hd
      simp [verify_conversation, hf, hc, verify_wrapper, hb2, hmis]

/-- C1 witness: each of the five decision branches reached at a
concrete store. -/
theorem C1_witness :
    (verify_conversation toy_env ⟨false, []⟩ "abc").state =
      IntegrityState.missing ∧
    (verify_conversation toy_env ⟨false, [wit_file_load_fail]⟩ "abc").state =
      IntegrityState.unknown ∧
    (verify_conversation toy_env ⟨false, [wit_file_nocontent]⟩ "abc").state =
      IntegrityState.unreadable ∧
    (verify_conversation toy_env ⟨false, [wit_file_corrupt]⟩ "abc").state =
      IntegrityState.corrupt ∧
    (verify_conversation toy_env ⟨false, [wit_file_valid]⟩ "abc").state =
      IntegrityState.valid :=
  ⟨(C1_verify_decision_order toy_env [] "abc").1 (by decide),
   (C1_verify_decision_order toy_env [wit_file_load_fail] "abc").2.1
     wit_file_load_fail (by decide) rfl,
   (C1_verify_decision_order toy_env [wit_file_nocontent] "abc").2.2.1
     wit_file_nocontent wit_wrap_nocontent (by decide) rfl (by decide),
   (C1_verify_decision_order toy_env [wit_file_corrupt] "abc").2.2.2.1
     wit_file_corrupt wit_wrap_corrupt [5] "BAD" (by decide) rfl (by decide)
     rfl (by decide) (by decide),
   (C1_verify_decision_order toy_env [wit_file_valid] "abc").2.2.2.2
     wit_file_valid wit_wrap_valid [5] (by decide) rfl (by decide) (by decide)⟩

/-- C9: when a wrapper decrypts successfully and its stored checksum
is absent or the empty string, the checksum comparison is skipped and
`verify_conversation` reports VALID with no error code — such a
wrapper can never be reported CORRUPT. -/
theorem C9_absent_checksum_is_valid {R : Type} (env : Env R)
    (fs : List ArchiveFile) (cid : String) (f : ArchiveFile) (w : Wrapper)
    (b : List Nat)
    (hf : find_wrapper_path_for_conversation env ⟨false, fs⟩ cid = some f)
    (hc : f.content = some w)
    (hd : (decrypt_bytes env w).1 = some b)
    (hck : w.checksum = none ∨ w.checksum = some "") :
    (verify_conversation env ⟨false, fs⟩ cid).state = IntegrityState.valid ∧
    (verify_conversation env ⟨false, fs⟩ cid).error_code = none := by
  rcases decrypt_bytes_cases env w with ⟨e2, he2⟩ | ⟨b2, hb2⟩
  · rw [he2] at hd
    cases hd
  · rcases hck with hck | hck <;>
      simp [verify_conversation, hf, hc, verify_wrapper, hb2,
            checksum_mismatch, hck]

/-- C9 witness: a decryptable wrapper with no stored checksum verifies
VALID with no error code. -/
theorem C9_witness :
    (verify_conversation toy_env ⟨false, [wit_file_nochecksum]⟩ "abc").state =
      IntegrityState.valid ∧
    (verify_conversation toy_env ⟨false, [wit_file_nochecksum]⟩
        "abc").error_code = none :=
  C9_absent_checksum_is_valid toy_env [wit_file_nochecksum] "abc"
    wit_file_nochecksum wit_wrap_nochecksum [5] (by decide) rfl (by decide)
    (Or.inl rfl)

/-- `conv_id_of` resolves to the metadata `id` when that id is a
non-empty string. -/
theorem conv_id_of_some (md : Meta) (c : String) (h : md.id = some c)
    (hne : c ≠ "") : conv_id_of md = c := by
  simp [conv_id_of, py_or_str, h, hne]

/-- `find?` skips a leading block in which the predicate fails
everywhere. -/
theorem find?_append_left_none {α : Type} (p : α → Bool) (l1 l2 : List α)
    (h : ∀ x ∈ l1, p x = false) :
    (l1 ++ l2).find? p = l2.find? p := by
  induction l1 with
  | nil => rfl
  | cons a l ih =>
    rw [List.cons_append,
        List.find?_cons_of_neg _ (by simp [h a (List.mem_cons_self a l)])]
    exact ih (fun x hx => h x (List.mem_cons_of_mem a hx))

/-- The three-tier lookup resolves on its first tier to the first file
bearing the token-derived name. -/
theorem lookup_first_name_match {R : Type} (env : Env R)
    (fs1 fs2 : List ArchiveFile) (tw : ArchiveFile) (cid : String)
    (h1 : ∀ f ∈ fs1, f.name ≠ wrapper_name env cid)
    (h2 : tw.name = wrapper_name env cid) :
    find_wrapper_path_for_conversation env ⟨false, fs1 ++ tw :: fs2⟩ cid =
      some tw := by
  have hfind : find_by_new_token env (fs1 ++ tw :: fs2) cid = some tw := by
    unfold find_by_new_token
    rw [find?_append_left_none _ fs1 _
        (fun f hf => beq_eq_false_iff_ne.mpr (h1 f hf))]
    exact List.find?_cons_of_pos _ (by simp [h2])
  unfold find_wrapper_path_for_conversation
  rw [hfind]

/-- `_verify_wrapper` on a wrapper freshly produced by the store:
decryption round-trips, the checksum matches, and the decoded content
is the stored record. -/
theorem verify_wrapper_mk {R : Type} (env : Env R) (laws : EnvLaws env)
    (cid : String) (f : ArchiveFile) (conv : R) (md : Meta) (rc : Bool) :
    verify_wrapper env cid f (mk_wrapper env conv md) rc =
      ({ conversation_id := cid,
         state := IntegrityState.valid,
         filepath := some (file_path_str f),
         size_bytes := some f.size_bytes,
         expected_checksum := some (env.sha256_hex (env.serialize conv)),
         actual_checksum := some (env.sha256_hex (env.serialize conv)),
         error_code := none },
       if rc then some conv else none) := by
  unfold verify_wrapper decrypt_bytes mk_wrapper
  simp only [laws.ciphertext_nonempty, laws.b64_roundtrip,
    laws.decrypt_encrypt, laws.deserialize_serialize, checksum_mismatch,
    if_neg]
  cases rc <;>
    simp [checksum_mismatch, laws.deserialize_serialize, ite_self]

/-- C3: round trip — storing a record under metadata carrying a
non-empty identifier on a non-poisoned store succeeds, and retrieving
that identifier returns the record, provided no pre-existing file
shadows the token-derived filename. -/
theorem C3_round_trip {R : Type} (env : Env R) (laws : EnvLaws env)
    (s : StoreState) (conv : R) (md : Meta) (cid : String)
    (hmis : s.key_mismatch = false)
    (hid : md.id = some cid) (hcid : cid ≠ "")
    (hfresh : ∀ f ∈ s.files, f.name ≠ wrapper_name env cid) :
    (store_conversation env s conv md true).1 = true ∧
    retrieve_conversation env (store_conversation env s conv md true).2 cid =
      some conv := by
  have hco : conv_id_of md = cid := conv_id_of_some md cid hid hcid
  refine ⟨rfl, ?_⟩
  have hw : (wrapper_file env conv md).name = wrapper_name env cid := by
    simp [wrapper_file, hco]
  have happ : write_file s.files (wrapper_file env conv md) =
      s.files ++ [wrapper_file env conv md] := by
    refine write_file_eq_append s.files _ (fun f hf hcontra => ?_)
    exact hfresh f hf (hcontra.2.trans hw)
  have hlook := lookup_first_name_match env s.files []
    (wrapper_file env conv md) cid hfresh hw
  show retrieve_conversation env
    { key_mismatch := s.key_mismatch,
      files := write_file s.files (wrapper_file env conv md) } cid = some conv
  rw [happ, hmis]
  unfold retrieve_conversation
  simp only [Bool.false_eq_true, if_false]
  have : (s.files ++ [wrapper_file env conv md] : List ArchiveFile) =
      s.files ++ wrapper_file env conv md :: [] := rfl
  rw [this, hlook]
  simp only [wrapper_file]
  rw [verify_wrapper_mk env laws cid _ conv md true]
  simp

/-- C3 witness: a concrete store-then-retrieve round trip. -/
theorem C3_witness :
    (store_conversation toy_env ⟨false, []⟩ 5 toy_md true).1 = true ∧
    retrieve_conversation toy_env
      (store_conversation toy_env ⟨false, []⟩ 5 toy_md true).2 "abc" =
      some 5 :=
  C3_round_trip toy_env toy_env_laws ⟨false, []⟩ 5 toy_md "abc" rfl rfl
    (by decide) (by simp)

/-- `_verify_wrapper` on a wrapper whose ciphertext decrypts cleanly
but whose stored checksum is a non-empty string different from the
recomputed digest: CORRUPT with `CHECKSUM_MISMATCH`. -/
theorem verify_wrapper_bad_checksum {R : Type} (env : Env R)
    (laws : EnvLaws env) (cid : String) (f : ArchiveFile) (w : Wrapper)
    (bytes : List Nat) (c : String)
    (henc : w.encrypted_content = env.b64encode (env.encrypt bytes))
    (hck : w.checksum = some c)
    (hc2 : c ≠ "") (hsha : env.sha256_hex bytes ≠ c) :
    (verify_wrapper env cid f w false).1.state = IntegrityState.corrupt ∧
    (verify_wrapper env cid f w false).1.error_code =
      some "CHECKSUM_MISMATCH" := by
  unfold verify_wrapper decrypt_bytes
  rw [henc, hck]
  simp [laws.ciphertext_nonempty, laws.b64_roundtrip, laws.decrypt_encrypt,
        checksum_mismatch, hc2, hsha]

/-- C4: after a successful store, overwriting the wrapper's stored
checksum with any non-empty string that no longer equals the SHA-256
of the plaintext makes verify report CORRUPT with error code
`CHECKSUM_MISMATCH`, and never VALID. -/
theorem C4_tamper_detection {R : Type} (env : Env R) (laws : EnvLaws env)
    (s : StoreState) (conv : R) (md : Meta) (cid : String) (c : String)
    (hid : md.id = some cid) (hcid : cid ≠ "")
    (hfresh : ∀ f ∈ s.files, f.name ≠ wrapper_name env cid)
    (hc1 : c ≠ env.sha256_hex (env.serialize conv)) (hc2 : c ≠ "") :
    (verify_conversation env
      ⟨false, tamper_checksum (store_conversation env s conv md true).2.files
        (wrapper_name env cid) c⟩ cid).state = IntegrityState.corrupt ∧
    (verify_conversation env
      ⟨false, tamper_checksum (store_conversation env s conv md true).2.files
        (wrapper_name env cid) c⟩ cid).error_code =
      some "CHECKSUM_MISMATCH" ∧
    (verify_conversation env
      ⟨false, tamper_checksum (store_conversation env s conv md true).2.files
        (wrapper_name env cid) c⟩ cid).state ≠ IntegrityState.valid := by
  have hco : conv_id_of md = cid := conv_id_of_some md cid hid hcid
  have hw : (wrapper_file env conv md).name = wrapper_name env cid := by
    simp [wrapper_file, hco]
  have happ : write_file s.files (wrapper_file env conv md) =
      s.files ++ [wrapper_file env conv md] := by
    refine write_file_eq_append s.files _ (fun f hf hcontra => ?_)
    exact hfresh f hf (hcontra.2.trans hw)
  have hfiles : (store_conversation env s conv md true).2.files =
      s.files ++ [wrapper_file env conv md] := happ
  have hsplit : tamper_checksum (s.files ++ [wrapper_file env conv md])
      (wrapper_name env cid) c =
      tamper_checksum s.files (wrapper_name env cid) c ++
        [{ wrapper_file env conv md with
           content := some { mk_wrapper env conv md with
                             checksum := some c } }] := by
    unfold tamper_checksum
    rw [List.map_append]
    congr 1
    simp [wrapper_file, mk_wrapper, hco]
  have h1t : ∀ f ∈ tamper_checksum s.files (wrapper_name env cid) c,
      f.name ≠ wrapper_name env cid := by
    intro f hf
    rcases List.mem_map.mp hf with ⟨g, hg, rfl⟩
    rw [if_neg (hfresh g hg)]
    exact hfresh g hg
  have hlook := lookup_first_name_match env
    (tamper_checksum s.files (wrapper_name env cid) c) []
    { wrapper_file env conv md with
      content := some { mk_wrapper env conv md with checksum := some c } }
    cid h1t (by simp [wrapper_file, hco])
  have hbad := verify_wrapper_bad_checksum env laws cid
    { wrapper_file env conv md with
      content := some { mk_wrapper env conv md with checksum := some c } }
    { mk_wrapper env conv md with checksum := some c }
    (env.serialize conv) c (by simp [mk_wrapper]) rfl hc2
    (fun h => hc1 h.symm)
  have hverify : verify_conversation env
      ⟨false, tamper_checksum (store_conversation env s conv md true).2.files
        (wrapper_name env cid) c⟩ cid =
      (verify_wrapper env cid
        { wrapper_file env conv md with
          content := some { mk_wrapper env conv md with checksum := some c } }
        { mk_wrapper env conv md with checksum := some c } false).1 := by
    rw [hfiles, hsplit]
    unfold verify_conversation
    simp only [Bool.false_eq_true, if_false]
    rw [hlook]
  refine ⟨?_, ?_, ?_⟩
  · rw [hverify]; exact hbad.1
  · rw [hverify]; exact hbad.2
  · rw [hverify, hbad.1]; decide

/-- C4 witness: a concrete tampered checksum is reported CORRUPT. -/
theorem C4_witness :
    (verify_conversation toy_env
      ⟨false, tamper_checksum
        (store_conversation toy_env ⟨false, []⟩ 5 toy_md true).2.files
        (wrapper_name toy_env "abc") "BAD"⟩ "abc").state =
      IntegrityState.corrupt ∧
    (verify_conversation toy_env
      ⟨false, tamper_checksum
        (store_conversation toy_env ⟨false, []⟩ 5 toy_md true).2.files
        (wrapper_name toy_env "abc") "BAD"⟩ "abc").error_code =
      some "CHECKSUM_MISMATCH" :=
  ⟨(C4_tamper_detection toy_env toy_env_laws ⟨false, []⟩ 5 toy_md "abc" "BAD"
      rfl (by decide) (by simp) (by decide) (by decide)).1,
   (C4_tamper_detection toy_env toy_env_laws ⟨false, []⟩ 5 toy_md "abc" "BAD"
      rfl (by decide) (by simp) (by decide) (by decide)).2.1⟩

/-- Distinct filename tokens give distinct wrapper filenames. -/
theorem wrapper_name_inj {R : Type} (env : Env R) (a b : String)
    (h : wrapper_name env a = wrapper_name env b) :
    env.file_token a = env.file_token b := by
  unfold wrapper_name at h
  have hd := congrArg String.data h
  simp only [String.data_append] at hd
  exact String.ext (List.append_cancel_left (List.append_cancel_right hd))

/-- The filename of the wrapper file written for a record. -/
theorem wrapper_file_name {R : Type} (env : Env R) (conv : R) (md : Meta) :
    (wrapper_file env conv md).name = wrapper_name env (conv_id_of md) := rfl

/-- The metadata `id` of a listed conversation whose lookup id belongs
to a batch of well-formed ids is a present `some`. -/
theorem meta_id_some (ids : List String) (m : Meta)
    (hg2 : ∀ a ∈ ids, a ≠ "" ∧ a ≠ "unknown")
    (hmem : m.id.getD "unknown" ∈ ids) :
    m.id = some (m.id.getD "unknown") := by
  rcases hmi : m.id with _ | x
  · rw [hmi] at hmem
    exact absurd rfl (hg2 _ hmem).2
  · rfl

/-- `conv_id_of` of the provenance-tagged metadata resolves to the
listing id. -/
theorem tagged_meta_conv_id (jid : String) (m : Meta) (c : String)
    (hm : m.id = some c) (hc : c ≠ "") :
    conv_id_of (tagged_meta jid m) = c := by
  apply conv_id_of_some
  · simp [tagged_meta, hm]
  · exact hc

/-- A successful fetch makes `stored_file` the wrapper file of the
fetched record under the tagged metadata. -/
theorem stored_file_eq {R : Type} (env : Env R) (jid : String) (m : Meta)
    (conv : R) (h : env.fetch_detail (m.id.getD "unknown") = some conv) :
    stored_file env jid m =
      some (wrapper_file env conv (tagged_meta jid m)) := by
  unfold stored_file
  rw [h]

/-- Every file among the stored files of a batch comes from a member
whose detail fetch succeeded. -/
theorem stored_files_mem {R : Type} (env : Env R) (jid : String)
    (l : List Meta) (g : ArchiveFile) (hg : g ∈ stored_files env jid l) :
    ∃ m ∈ l, ∃ conv, env.fetch_detail (m.id.getD "unknown") = some conv ∧
      g = wrapper_file env conv (tagged_meta jid m) := by
  rcases List.mem_filterMap.mp hg with ⟨m, hm, hsf⟩
  unfold stored_file at hsf
  rcases hfd : env.fetch_detail (m.id.getD "unknown") with _ | conv
  · rw [hfd] at hsf
    cases hsf
  · rw [hfd] at hsf
    injection hsf with hsf
    exact ⟨m, hm, conv, hfd, hsf.symm⟩

/-- Stored files of conversations with other ids are invisible to all
three lookup tiers for a given id. -/
theorem stored_files_lookup_clean {R : Type} (env : Env R) (jid : String)
    (part : List Meta) (cid : String)
    (hids : ∀ m2 ∈ part, ∃ c2, m2.id = some c2 ∧ c2 ≠ "" ∧ c2 ≠ cid ∧
      env.file_token c2 ≠ env.file_token cid ∧
      legacy_glob_match (wrapper_name env c2) cid = false) :
    (∀ f ∈ stored_files env jid part, f.name ≠ wrapper_name env cid) ∧
    (∀ f ∈ stored_files env jid part,
      legacy_glob_match f.name cid = false) ∧
    (∀ f ∈ stored_files env jid part, metadata_scan_hit cid f = false) := by
  refine ⟨?_, ?_, ?_⟩ <;> intro f hf <;>
    obtain ⟨m2, hm2, conv2, hfd, rfl⟩ := stored_files_mem env jid part f hf <;>
    obtain ⟨c2, hid2, hne2, hnecid, htok, hleg⟩ := hids m2 hm2
  · rw [wrapper_file_name, tagged_meta_conv_id jid m2 c2 hid2 hne2]
    intro h
    exact htok (wrapper_name_inj env c2 cid h)
  · rw [wrapper_file_name, tagged_meta_conv_id jid m2 c2 hid2 hne2]
    exact hleg
  · unfold metadata_scan_hit
    show (py_or_str (tagged_meta jid m2).id
      (tagged_meta jid m2).conversation_id == some cid) = false
    rw [show (tagged_meta jid m2).id = m2.id from rfl, hid2]
    simp only [py_or_str]
    rw [if_neg hne2]
    exact beq_eq_false_iff_ne.mpr (fun h => hnecid (Option.some.inj h))

/-- The three-tier lookup finds nothing when every file fails all
three tiers. -/
theorem lookup_none {R : Type} (env : Env R) (fs : List ArchiveFile)
    (cid : String)
    (h1 : ∀ f ∈ fs, f.name ≠ wrapper_name env cid)
    (h2 : ∀ f ∈ fs, legacy_glob_match f.name cid = false)
    (h3 : ∀ f ∈ fs, metadata_scan_hit cid f = false) :
    find_wrapper_path_for_conversation env ⟨false, fs⟩ cid = none := by
  have e1 : find_by_new_token env fs cid = none := by
    apply List.find?_eq_none.mpr
    intro f hf
    simp only [beq_iff_eq]
    exact h1 f hf
  have e2 : find_by_legacy_glob fs cid = none := by
    apply List.find?_eq_none.mpr
    intro f hf
    simp [h2 f hf]
  have e3 : find_by_metadata_scan fs cid = none := by
    apply List.find?_eq_none.mpr
    intro f hf
    simp [h3 f hf]
  unfold find_wrapper_path_for_conversation
  rw [e1, e2, e3]

/-- `verify_conversation` on an archive whose first token-name match
is a freshly stored wrapper reports VALID. -/
theorem verify_at_stored {R : Type} (env : Env R) (laws : EnvLaws env)
    (fs1 fs2 : List ArchiveFile) (conv : R) (md : Meta) (cid : String)
    (hcid : conv_id_of md = cid)
    (h1 : ∀ f ∈ fs1, f.name ≠ wrapper_name env cid) :
    (verify_conversation env
      ⟨false, fs1 ++ wrapper_file env conv md :: fs2⟩ cid).state =
      IntegrityState.valid := by
  have hlook := lookup_first_name_match env fs1 fs2 (wrapper_file env conv md)
    cid h1 (by rw [wrapper_file_name, hcid])
  unfold verify_conversation
  simp only [Bool.false_eq_true, if_false]
  rw [hlook]
  show (verify_wrapper env cid (wrapper_file env conv md)
    (mk_wrapper env conv md) false).1.state = IntegrityState.valid
  rw [verify_wrapper_mk env laws cid _ conv md false]

/-- In a fresh-archive export's resulting store, every processed
conversation passes full integrity verification. -/
theorem hasvalid_mem_stored {R : Type} (env : Env R) (laws : EnvLaws env)
    (jid : String) (dl : List Meta) (m : Meta)
    (hm : m ∈ dl)
    (hfetch : ∀ m2 ∈ dl, (env.fetch_detail (m2.id.getD "unknown")).isSome)
    (hg : good_ids env (dl.map (fun m2 => m2.id.getD "unknown"))) :
    has_valid_conversation env ⟨false, stored_files env jid dl⟩
      (m.id.getD "unknown") = true := by
  obtain ⟨l1, l2, rfl⟩ := List.append_of_mem hm
  have hmemids : m.id.getD "unknown" ∈
      (l1 ++ m :: l2).map (fun m2 => m2.id.getD "unknown") :=
    List.mem_map_of_mem _ hm
  have hmid : m.id = some (m.id.getD "unknown") :=
    meta_id_some _ m hg.2.1 hmemids
  have hcne : m.id.getD "unknown" ≠ "" := (hg.2.1 _ hmemids).1
  have hnd := hg.1
  rw [List.map_append, List.map_cons] at hnd
  have hdisj := (List.nodup_append.mp hnd).2.2
  have hids1 : ∀ m2 ∈ l1, ∃ c2, m2.id = some c2 ∧ c2 ≠ "" ∧
      c2 ≠ m.id.getD "unknown" ∧
      env.file_token c2 ≠ env.file_token (m.id.getD "unknown") ∧
      legacy_glob_match (wrapper_name env c2) (m.id.getD "unknown") = false := by
    intro m2 hm2
    have hmem2 : m2.id.getD "unknown" ∈
        (l1 ++ m :: l2).map (fun m3 => m3.id.getD "unknown") :=
      List.mem_map_of_mem _ (List.mem_append_left _ hm2)
    have hmem2l : m2.id.getD "unknown" ∈
        l1.map (fun m3 => m3.id.getD "unknown") :=
      List.mem_map_of_mem _ hm2
    have hne2cid : m2.id.getD "unknown" ≠ m.id.getD "unknown" := by
      intro h
      exact hdisj hmem2l (h ▸ List.mem_cons_self _ _)
    exact ⟨m2.id.getD "unknown", meta_id_some _ m2 hg.2.1 hmem2,
      (hg.2.1 _ hmem2).1, hne2cid,
      fun h => hne2cid (hg.2.2.1 _ hmem2 _ hmemids h),
      hg.2.2.2 _ hmem2 _ hmemids⟩
  have hclean := stored_files_lookup_clean env jid l1
    (m.id.getD "unknown") hids1
  obtain ⟨conv, hconv⟩ :=
    Option.isSome_iff_exists.mp (hfetch m hm)
  have hsplit : stored_files env jid (l1 ++ m :: l2) =
      stored_files env jid l1 ++
        wrapper_file env conv (tagged_meta jid m) ::
          stored_files env jid l2 := by
    unfold stored_files
    rw [List.filterMap_append, List.filterMap_cons,
        stored_file_eq env jid m conv hconv]
  rw [hsplit]
  have hstate := verify_at_stored env laws (stored_files env jid l1)
    (stored_files env jid l2) conv (tagged_meta jid m) (m.id.getD "unknown")
    (tagged_meta_conv_id jid m _ hmid hcne) hclean.1
  unfold has_valid_conversation
  rw [hstate]
  rfl

/-- Every processed conversation is counted exactly once: successes
plus failures equals the number of listed conversations. -/
theorem process_all_counts {R : Type} (env : Env R) (jid : String)
    (force : Bool) :
    ∀ (l : List Meta) (st : StoreState),
      (process_all env jid force st l).1 +
        (process_all env jid force st l).2.1 = l.length := by
  intro l
  induction l with
  | nil => intro st; rfl
  | cons m ms ih =>
    intro st
    have h := ih (process_item env jid force st m).2.2
    simp only [process_all]
    split <;> simp <;> omega

/-- A leading block of items that the loop skips contributes its
length to the success count and leaves the store untouched. -/
theorem process_all_skip_prefix {R : Type} (env : Env R) (jid : String)
    (l1 l2 : List Meta) (st : StoreState)
    (h : ∀ m ∈ l1, process_item env jid false st m = (true, none, st)) :
    process_all env jid false st (l1 ++ l2) =
      ((process_all env jid false st l2).1 + l1.length,
       (process_all env jid false st l2).2) := by
  induction l1 with
  | nil => simp
  | cons m ms ih =>
    simp only [List.cons_append, process_all]
    rw [h m (List.mem_cons_self m ms)]
    rw [if_pos rfl]
    dsimp only
    simp only [List.append_eq]
    rw [ih (fun x hx => h x (List.mem_cons_of_mem m hx))]
    simp [Nat.add_assoc]

/-- One loop iteration for an id whose stored copy verifies: skip,
count successful, store untouched. -/
theorem process_item_skips {R : Type} (env : Env R) (jid : String)
    (st : StoreState) (m : Meta)
    (hunk : m.id.getD "unknown" ≠ "unknown")
    (htrue : has_valid_conversation env st (m.id.getD "unknown") = true) :
    process_item env jid false st m = (true, none, st) := by
  simp only [process_item]
  rw [htrue]
  simp [hunk]

/-- One loop iteration for an id with no valid stored copy and a
successful fetch and store: fetch, write the wrapper, count
successful. -/
theorem process_item_stores {R : Type} (env : Env R) (jid : String)
    (st : StoreState) (m : Meta) (conv : R)
    (hio : env.io_ok = true)
    (hkm : st.key_mismatch = false)
    (hfalse : has_valid_conversation env st (m.id.getD "unknown") = false)
    (hconv : env.fetch_detail (m.id.getD "unknown") = some conv) :
    process_item env jid false st m =
      (true, none,
       ⟨false, write_file st.files
         (wrapper_file env conv (tagged_meta jid m))⟩) := by
  simp only [process_item]
  rw [hfalse, hconv]
  simp only [Bool.and_false, Bool.false_eq_true, if_false]
  unfold store_conversation
  rw [hio]
  simp [tagged_meta, hkm]

/-- Running the export loop over a batch of well-formed, fetchable
conversations against an archive holding exactly the wrappers of the
already-done part stores every item: all succeed, no errors, and the
archive ends up holding the wrappers of the whole batch. -/
theorem run1_stores_all {R : Type} (env : Env R)
    (jid : String) (hio : env.io_ok = true) :
    ∀ (l done : List Meta),
      good_ids env ((done ++ l).map (fun m2 => m2.id.getD "unknown")) →
      (∀ m2 ∈ l, (env.fetch_detail (m2.id.getD "unknown")).isSome) →
      process_all env jid false ⟨false, stored_files env jid done⟩ l =
        (l.length, 0, [], ⟨false, stored_files env jid (done ++ l)⟩) := by
  intro l
  induction l with
  | nil =>
    intro done hg hf
    simp [process_all]
  | cons m ms ih =>
    intro done hg hf
    have hmids : m.id.getD "unknown" ∈
        (done ++ m :: ms).map (fun m2 => m2.id.getD "unknown") :=
      List.mem_map_of_mem _ (List.mem_append_right _ (List.mem_cons_self m ms))
    have hmid : m.id = some (m.id.getD "unknown") :=
      meta_id_some _ m hg.2.1 hmids
    have hcne : m.id.getD "unknown" ≠ "" := (hg.2.1 _ hmids).1
    have hcunk : m.id.getD "unknown" ≠ "unknown" := (hg.2.1 _ hmids).2
    have hnd := hg.1
    rw [List.map_append, List.map_cons] at hnd
    have hdisj := (List.nodup_append.mp hnd).2.2
    have hids1 : ∀ m2 ∈ done, ∃ c2, m2.id = some c2 ∧ c2 ≠ "" ∧
        c2 ≠ m.id.getD "unknown" ∧
        env.file_token c2 ≠ env.file_token (m.id.getD "unknown") ∧
        legacy_glob_match (wrapper_name env c2) (m.id.getD "unknown") =
          false := by
      intro m2 hm2
      have hmem2 : m2.id.getD "unknown" ∈
          (done ++ m :: ms).map (fun m3 => m3.id.getD "unknown") :=
        List.mem_map_of_mem _ (List.mem_append_left _ hm2)
      have hmem2l : m2.id.getD "unknown" ∈
          done.map (fun m3 => m3.id.getD "unknown") :=
        List.mem_map_of_mem _ hm2
      have hne2cid : m2.id.getD "unknown" ≠ m.id.getD "unknown" := by
        intro h
        exact hdisj hmem2l (h ▸ List.mem_cons_self _ _)
      exact ⟨m2.id.getD "unknown", meta_id_some _ m2 hg.2.1 hmem2,
        (hg.2.1 _ hmem2).1, hne2cid,
        fun h => hne2cid (hg.2.2.1 _ hmem2 _ hmids h),
        hg.2.2.2 _ hmem2 _ hmids⟩
    have hclean := stored_files_lookup_clean env jid done
      (m.id.getD "unknown") hids1
    have hlookn := lookup_none env (stored_files env jid done)
      (m.id.getD "unknown") hclean.1 hclean.2.1 hclean.2.2
    have hvfalse : has_valid_conversation env
        ⟨false, stored_files env jid done⟩ (m.id.getD "unknown") = false := by
      unfold has_valid_conversation verify_conversation
      simp only [Bool.false_eq_true, if_false]
      rw [hlookn]
      rfl
    obtain ⟨conv, hconv⟩ := Option.isSome_iff_exists.mp
      (hf m (List.mem_cons_self m ms))
    have hitem := process_item_stores env jid
      ⟨false, stored_files env jid done⟩ m conv hio rfl hvfalse hconv
    have happend : write_file (stored_files env jid done)
        (wrapper_file env conv (tagged_meta jid m)) =
        stored_files env jid done ++
          [wrapper_file env conv (tagged_meta jid m)] := by
      refine write_file_eq_append _ _ (fun f hf2 hcontra => ?_)
      have := hclean.1 f hf2
      exact this (hcontra.2.trans
        (by rw [wrapper_file_name, tagged_meta_conv_id jid m _ hmid hcne]))
    have hstored1 : stored_files env jid (done ++ [m]) =
        stored_files env jid done ++
          [wrapper_file env conv (tagged_meta jid m)] := by
      unfold stored_files
      rw [List.filterMap_append]
      congr 1
      rw [List.filterMap_cons, stored_file_eq env jid m conv hconv]
      rfl
    have hassoc : (done ++ [m]) ++ ms = done ++ m :: ms := by
      simp
    have hg2 : good_ids env
        (((done ++ [m]) ++ ms).map (fun m2 => m2.id.getD "unknown")) := by
      rw [hassoc]
      exact hg
    have hrest := ih (done ++ [m]) hg2
      (fun m2 hm2 => hf m2 (List.mem_cons_of_mem m hm2))
    simp only [process_all]
    rw [hitem]
    rw [if_pos rfl]
    dsimp only
    rw [happend, ← hstored1, hrest, hassoc]
    rfl

/-- `update_row` never changes the number of job rows. -/
theorem update_row_length (jobs : List JobRow) (jid : String)
    (f : JobRow → JobRow) : (update_row jobs jid f).length = jobs.length :=
  List.length_map jobs _

/-- Looking up a job after a row update yields the updated row. -/
theorem get_job_update_row (jobs : List JobRow) (jid : String)
    (f : JobRow → JobRow) (hf : ∀ r, (f r).job_id = r.job_id) :
    get_job (update_row jobs jid f) jid = (get_job jobs jid).map f := by
  induction jobs with
  | nil => rfl
  | cons r rs ih =>
    simp only [update_row, get_job, List.map_cons] at ih ⊢
    by_cases h : r.job_id = jid
    · rw [if_pos h]
      rw [List.find?_cons_of_pos _ (by simp [hf, h]),
          List.find?_cons_of_pos _ (by simp [h])]
      rfl
    · rw [if_neg h]
      rw [List.find?_cons_of_neg _ (by simp [h]),
          List.find?_cons_of_neg _ (by simp [h])]
      exact ih

/-- Well-formedness of a batch restricts to any prefix of it. -/
theorem good_ids_take {R : Type} (env : Env R) (items : List Meta) (k : Nat)
    (hg : good_ids env (items.map (fun m => m.id.getD "unknown"))) :
    good_ids env ((items.take k).map (fun m => m.id.getD "unknown")) := by
  have hsub : ((items.take k).map (fun m => m.id.getD "unknown")).Sublist
      (items.map (fun m => m.id.getD "unknown")) :=
    (List.take_sublist k items).map _
  exact ⟨hg.1.sublist hsub,
    fun a ha => hg.2.1 a (hsub.subset ha),
    fun a ha b hb => hg.2.2.1 a (hsub.subset ha) b (hsub.subset hb),
    fun a ha b hb => hg.2.2.2 a (hsub.subset ha) b (hsub.subset hb)⟩

/-- The two ledger updates performed by a completing run: looking the
job up afterwards yields the original row with the final fields. -/
theorem get_job_run_core_updates (jobs : List JobRow) (jid : String)
    (total s f : Nat) (es : List String) :
    get_job (update_row (update_row jobs jid
        (fun r => { r with status := "in_progress" })) jid
        (fun r => { r with status := "completed",
                           total_conversations := total,
                           successful_conversations := s,
                           failed_conversations := f,
                           errors := es })) jid =
      (get_job jobs jid).map
        (fun r => { r with status := "completed",
                           total_conversations := total,
                           successful_conversations := s,
                           failed_conversations := f,
                           errors := es }) := by
  rw [get_job_update_row
        (update_row jobs jid (fun r => { r with status := "in_progress" }))
        jid
        (fun r => { r with status := "completed",
                           total_conversations := total,
                           successful_conversations := s,
                           failed_conversations := f,
                           errors := es })
        (fun _ => rfl),
      get_job_update_row jobs jid
        (fun r => { r with status := "in_progress" }) (fun _ => rfl),
      Option.map_map]
  rfl

/-- C7: resuming an export interrupted after its first `k` items (run
against a fresh archive) yields a normal completion under the same job
id: no job row is added, the job ends `completed` with
`total = |items|`, `successful + failed = total` (counts are never
reset to zero), and the `k` items already stored by the interrupted
invocation are counted as successful again via the integrity-aware
skip. -/
theorem C7_resumability {R : Type} (env : Env R) (laws : EnvLaws env)
    (jobs : List JobRow) (jid new_jid : String)
    (items : List Meta) (k : Nat)
    (hk : k ≤ items.length)
    (hrow : (get_job jobs jid).isSome = true)
    (htok : env.token_ok = true) (hapi : env.api_ok = true)
    (hval : env.token_valid = true) (hio : env.io_ok = true)
    (hg : good_ids env (items.map (fun m => m.id.getD "unknown")))
    (hfetch : ∀ m ∈ items.take k,
      (env.fetch_detail (m.id.getD "unknown")).isSome) :
    export_ok (run_export_locked env jobs new_jid (some jid) false
        (process_all env jid false ⟨false, []⟩ (items.take k)).2.2.2 items) =
      some jid ∧
    (export_jobs (run_export_locked env jobs new_jid (some jid) false
        (process_all env jid false ⟨false, []⟩ (items.take k)).2.2.2
        items)).length = jobs.length ∧
    (get_job (export_jobs (run_export_locked env jobs new_jid (some jid) false
        (process_all env jid false ⟨false, []⟩ (items.take k)).2.2.2 items))
        jid).map JobRow.status = some "completed" ∧
    (get_job (export_jobs (run_export_locked env jobs new_jid (some jid) false
        (process_all env jid false ⟨false, []⟩ (items.take k)).2.2.2 items))
        jid).map JobRow.total_conversations = some items.length ∧
    (get_job (export_jobs (run_export_locked env jobs new_jid (some jid) false
        (process_all env jid false ⟨false, []⟩ (items.take k)).2.2.2 items))
        jid).map (fun r =>
          r.successful_conversations + r.failed_conversations) =
      some items.length ∧
    (get_job (export_jobs (run_export_locked env jobs new_jid (some jid) false
        (process_all env jid false ⟨false, []⟩ (items.take k)).2.2.2 items))
        jid).map (fun r =>
          decide (k ≤ r.successful_conversations)) = some true := by
  have hgk := good_ids_take env items k hg
  have hrun1 := run1_stores_all env jid hio (items.take k) []
    (by simpa using hgk) hfetch
  have hst1 : (process_all env jid false ⟨false, []⟩ (items.take k)).2.2.2 =
      ⟨false, stored_files env jid (items.take k)⟩ := by
    rw [show (⟨false, []⟩ : StoreState) =
          ⟨false, stored_files env jid ([] : List Meta)⟩ from rfl, hrun1]
    simp
  have hskip : ∀ m ∈ items.take k,
      process_item env jid false
        ⟨false, stored_files env jid (items.take k)⟩ m =
        (true, none, ⟨false, stored_files env jid (items.take k)⟩) := by
    intro m hm
    have hmids : m.id.getD "unknown" ∈
        items.map (fun m2 => m2.id.getD "unknown") :=
      List.mem_map_of_mem _ ((List.take_sublist k items).subset hm)
    exact process_item_skips env jid _ m (hg.2.1 _ hmids).2
      (hasvalid_mem_stored env laws jid (items.take k) m hm hfetch hgk)
  have hloop := process_all_skip_prefix env jid (items.take k) (items.drop k)
    ⟨false, stored_files env jid (items.take k)⟩ hskip
  rw [List.take_append_drop] at hloop
  have htklen : (items.take k).length = k := by
    rw [List.length_take]
    omega
  have hcount := process_all_counts env jid false (items.drop k)
    ⟨false, stored_files env jid (items.take k)⟩
  have hdroplen : (items.drop k).length = items.length - k :=
    List.length_drop k items
  obtain ⟨row, hroweq⟩ := Option.isSome_iff_exists.mp hrow
  have hexp : run_export_locked env jobs new_jid (some jid) false
      (process_all env jid false ⟨false, []⟩ (items.take k)).2.2.2 items =
      run_core env jobs jid false
        ⟨false, stored_files env jid (items.take k)⟩ items := by
    rw [hst1]
    unfold run_export_locked
    dsimp only
    rw [hroweq]
  rw [hexp]
  unfold run_core
  rw [htok, hapi, hval]
  simp only [Bool.not_true, Bool.false_eq_true, if_false]
  rw [hloop]
  refine ⟨rfl, ?_, ?_, ?_, ?_, ?_⟩
  · simp [export_jobs, update_row_length]
  · simp only [export_jobs]
    rw [get_job_run_core_updates, hroweq]
    rfl
  · simp only [export_jobs]
    rw [get_job_run_core_updates, hroweq]
    rfl
  · simp only [export_jobs]
    rw [get_job_run_core_updates, hroweq]
    show some ((process_all env jid false
        ⟨false, stored_files env jid (items.take k)⟩ (items.drop k)).1 +
        (items.take k).length +
      (process_all env jid false
        ⟨false, stored_files env jid (items.take k)⟩ (items.drop k)).2.1) =
      some items.length
    congr 1
    omega
  · simp only [export_jobs]
    rw [get_job_run_core_updates, hroweq]
    show some (decide (k ≤ (process_all env jid false
        ⟨false, stored_files env jid (items.take k)⟩ (items.drop k)).1 +
        (items.take k).length)) = some true
    congr 1
    rw [decide_eq_true_eq]
    omega

/-- C7 witness: a concrete two-item export interrupted after its first
item and resumed under the same job id. -/
theorem C7_witness :
    export_ok (run_export_locked toy_env [toy_job] "J2" (some "J1") false
        (process_all toy_env "J1" false ⟨false, []⟩ (toy_items.take 1)).2.2.2
        toy_items) = some "J1" ∧
    (export_jobs (run_export_locked toy_env [toy_job] "J2" (some "J1") false
        (process_all toy_env "J1" false ⟨false, []⟩ (toy_items.take 1)).2.2.2
        toy_items)).length = [toy_job].length ∧
    (get_job (export_jobs (run_export_locked toy_env [toy_job] "J2"
        (some "J1") false
        (process_all toy_env "J1" false ⟨false, []⟩ (toy_items.take 1)).2.2.2
        toy_items)) "J1").map JobRow.status = some "completed" ∧
    (get_job (export_jobs (run_export_locked toy_env [toy_job] "J2"
        (some "J1") false
        (process_all toy_env "J1" false ⟨false, []⟩ (toy_items.take 1)).2.2.2
        toy_items)) "J1").map JobRow.total_conversations =
      some toy_items.length ∧
    (get_job (export_jobs (run_export_locked toy_env [toy_job] "J2"
        (some "J1") false
        (process_all toy_env "J1" false ⟨false, []⟩ (toy_items.take 1)).2.2.2
        toy_items)) "J1").map (fun r =>
          r.successful_conversations + r.failed_conversations) =
      some toy_items.length ∧
    (get_job (export_jobs (run_export_locked toy_env [toy_job] "J2"
        (some "J1") false
        (process_all toy_env "J1" false ⟨false, []⟩ (toy_items.take 1)).2.2.2
        toy_items)) "J1").map (fun r =>
          decide (1 ≤ r.successful_conversations)) = some true :=
  C7_resumability toy_env toy_env_laws [toy_job] "J1" "J2" toy_items 1
    (by decide) (by decide) rfl rfl rfl rfl
    (by unfold good_ids; exact ⟨by decide, by decide, by decide, by decide⟩)
    (by decide)

end ChatsArchive
